import Mathlib

/-!
Verification of the divinepic-lambda-aws image-processing pipeline.

The Python sources (lambda_orchestrator.py, lambda_handler.py,
lambda_status_checker.py, dump.py) are shallowly embedded below.  Strings
are modelled as `List Char` (Python strings are sequences of code points),
machine-level effects (S3 puts, SSM parameter puts, EC2 launches,
Elasticsearch index calls) are modelled as explicit traces returned next to
each function's result, and every fallible external call is driven by an
explicit oracle argument so that both the success and the failure paths of
the Python code are represented.
-/

/-- Python strings are sequences of code points; we embed them as `List Char`. -/
abbrev Str := List Char

/-- Raw object bodies (image bytes); their content is never inspected. -/
abbrev Bytes := List Nat

/- ── Decimal digits, `repr`/`int` and zero padding ──────────────────────── -/

/-- Numeric value of a digit character (`'0'` ↦ 0, …, `'9'` ↦ 9). -/
def dv (c : Char) : Nat := c.toNat - 48

/-- `c` is an ASCII decimal digit. -/
def isDig (c : Char) : Prop := 48 ≤ c.toNat ∧ c.toNat ≤ 57

instance (c : Char) : Decidable (isDig c) := by unfold isDig; infer_instance

/-- Boolean form of `isDig`, used inside executable definitions. -/
def isDigB (c : Char) : Bool := decide (isDig c)

/-- Big-endian value of a digit string. -/
def decVal : Str → Nat
  | [] => 0
  | c :: cs => dv c * 10 ^ cs.length + decVal cs

/-- Digit characters of a positive number, most significant first; `fuel`
bounds the recursion and any `fuel ≥ n` is enough. -/
def decChars : Nat → Nat → Str
  | 0, _ => []
  | fuel + 1, n => if n = 0 then [] else decChars fuel (n / 10) ++ [Nat.digitChar (n % 10)]

/-- The decimal representation of `n`, as Python `repr`/`f"{n:d}"` prints it. -/
def decRepr (n : Nat) : Str :=
  if n = 0 then ['0'] else decChars n n

theorem decChars_eq_digits : ∀ (fuel n : Nat), n ≤ fuel →
    decChars fuel n = ((Nat.digits 10 n).map Nat.digitChar).reverse
  | 0, n, h => by
    have : n = 0 := Nat.le_zero.1 h
    simp [this, decChars]
  | fuel + 1, n, h => by
    by_cases h0 : n = 0
    · simp [h0, decChars]
    · have hpos : 0 < n := Nat.pos_of_ne_zero h0
      have hdiv : n / 10 ≤ fuel := by
        have : n / 10 < n := Nat.div_lt_self hpos (by norm_num)
        omega
      rw [decChars, if_neg h0, decChars_eq_digits fuel (n / 10) hdiv,
        Nat.digits_def' (by norm_num : 1 < 10) hpos]
      simp

theorem decRepr_eq_digits (n : Nat) :
    decRepr n = if n = 0 then ['0'] else ((Nat.digits 10 n).map Nat.digitChar).reverse := by
  unfold decRepr
  by_cases h0 : n = 0
  · simp [h0]
  · rw [if_neg h0, if_neg h0, decChars_eq_digits n n le_rfl]

/-- Python `f"{n:03d}"`: the decimal representation left-padded with zeros to
width (at least) 3. -/
def pad3 (n : Nat) : Str := List.replicate (3 - (decRepr n).length) '0' ++ decRepr n

/-- Python `strftime("%d", …)`: the day of month zero-padded to width 2. -/
def pad2 (n : Nat) : Str := if n < 10 then '0' :: decRepr n else decRepr n

theorem dv_digitChar {d : Nat} (h : d < 10) : dv (Nat.digitChar d) = d := by
  interval_cases d <;> rfl

theorem isDig_digitChar {d : Nat} (h : d < 10) : isDig (Nat.digitChar d) := by
  interval_cases d <;> decide

theorem isDig_mem_decRepr {n : Nat} {c : Char} (hc : c ∈ decRepr n) : isDig c := by
  rw [decRepr_eq_digits] at hc
  by_cases h0 : n = 0
  · simp [h0] at hc
    subst hc; decide
  · simp [h0, List.mem_reverse, List.mem_map] at hc
    obtain ⟨d, hd, rfl⟩ := hc
    exact isDig_digitChar (Nat.digits_lt_base (by norm_num) hd)

theorem decVal_append_one (l : Str) (c : Char) :
    decVal (l ++ [c]) = 10 * decVal l + dv c := by
  induction l with
  | nil => simp [decVal]
  | cons c' l ih =>
    simp only [List.cons_append, decVal, ih, List.length_append, List.length_cons,
      List.length_nil, List.append_eq]
    ring

theorem decVal_digits (ds : List Nat) (h : ∀ d ∈ ds, d < 10) :
    decVal ((ds.map Nat.digitChar).reverse) = Nat.ofDigits 10 ds := by
  induction ds with
  | nil => simp [decVal, Nat.ofDigits_nil]
  | cons d ds ih =>
    have hd : d < 10 := h d (by simp)
    have hds : ∀ x ∈ ds, x < 10 := fun x hx => h x (by simp [hx])
    simp only [List.map_cons, List.reverse_cons, decVal_append_one, ih hds,
      Nat.ofDigits_cons, dv_digitChar hd]
    ring

theorem decVal_decRepr (n : Nat) : decVal (decRepr n) = n := by
  rw [decRepr_eq_digits]
  by_cases h0 : n = 0
  · simp [h0]; decide
  · rw [if_neg h0, decVal_digits _ (fun d hd => Nat.digits_lt_base (by norm_num) hd),
      Nat.ofDigits_digits]

theorem decVal_replicate_zero (k : Nat) (l : Str) :
    decVal (List.replicate k '0' ++ l) = decVal l := by
  induction k with
  | zero => simp
  | succ k ih => simp [List.replicate_succ, decVal, ih]; decide

theorem decVal_pad3 (n : Nat) : decVal (pad3 n) = n := by
  unfold pad3; rw [decVal_replicate_zero, decVal_decRepr]

theorem isDig_mem_pad3 {n : Nat} {c : Char} (hc : c ∈ pad3 n) : isDig c := by
  unfold pad3 at hc
  rcases List.mem_append.1 hc with h | h
  · have := List.eq_of_mem_replicate h; subst this; decide
  · exact isDig_mem_decRepr h

theorem pad3_inj {m n : Nat} (h : pad3 m = pad3 n) : m = n := by
  have := congrArg decVal h
  rwa [decVal_pad3, decVal_pad3] at this

theorem ne_underscore_of_isDig {c : Char} (h : isDig c) : c ≠ '_' := by
  rintro rfl; revert h; decide

/-- Splitting a concatenation at an underscore is unambiguous when neither
left part contains an underscore. -/
theorem underscore_split {a b x y : Str}
    (ha : ∀ c ∈ a, c ≠ '_') (hb : ∀ c ∈ b, c ≠ '_')
    (h : a ++ '_' :: x = b ++ '_' :: y) : a = b ∧ x = y := by
  induction a generalizing b with
  | nil =>
    cases b with
    | nil => simpa using h
    | cons c bs =>
      simp only [List.nil_append, List.cons_append, List.cons_eq_cons] at h
      exact absurd h.1.symm (hb c (by simp))
  | cons c as ih =>
    cases b with
    | nil =>
      simp only [List.nil_append, List.cons_append, List.cons_eq_cons] at h
      exact absurd h.1 (ha c (by simp))
    | cons c' bs =>
      simp only [List.cons_append, List.cons_eq_cons] at h
      obtain ⟨rfl, h2⟩ := h
      obtain ⟨rfl, rfl⟩ := ih (fun d hd => ha d (by simp [hd]))
        (fun d hd => hb d (by simp [hd])) h2
      exact ⟨rfl, rfl⟩

/- ── Python string comparison (code-point lexicographic) ────────────────── -/

/-- Python `<` on strings: lexicographic comparison by code point. -/
def pyLtB : Str → Str → Bool
  | [], [] => false
  | [], _ :: _ => true
  | _ :: _, [] => false
  | a :: as, b :: bs =>
    if a.toNat < b.toNat then true
    else if b.toNat < a.toNat then false
    else pyLtB as bs

theorem pyLtB_cons_iff {a b : Char} {as bs : Str} :
    pyLtB (a :: as) (b :: bs) = true ↔
      a.toNat < b.toNat ∨ (a.toNat = b.toNat ∧ pyLtB as bs = true) := by
  simp only [pyLtB]
  rcases Nat.lt_trichotomy a.toNat b.toNat with h | h | h
  · simp [h]
  · simp [h, Nat.lt_irrefl]
  · simp [h, Nat.lt_asymm h]
    omega

theorem pyLtB_asymm : ∀ {a b : Str}, pyLtB a b = true → pyLtB b a = false
  | [], [], h => by simp [pyLtB] at h
  | [], _ :: _, _ => by simp [pyLtB]
  | _ :: _, [], h => by simp [pyLtB] at h
  | a :: as, b :: bs, h => by
    rw [pyLtB_cons_iff] at h
    rw [Bool.eq_false_iff]
    intro hba
    rw [pyLtB_cons_iff] at hba
    rcases h with h | ⟨he, h⟩ <;> rcases hba with hb | ⟨hbe, hb⟩
    · omega
    · omega
    · omega
    · have := pyLtB_asymm h
      rw [hb] at this
      exact Bool.true_eq_false.mp this

theorem char_toNat_inj {a b : Char} (h : a.toNat = b.toNat) : a = b :=
  Char.ext (UInt32.ext h)

theorem pyLtB_connected : ∀ {a b : Str}, a ≠ b → pyLtB a b = true ∨ pyLtB b a = true
  | [], [], h => absurd rfl h
  | [], _ :: _, _ => by simp [pyLtB]
  | _ :: _, [], _ => by simp [pyLtB]
  | a :: as, b :: bs, h => by
    rw [pyLtB_cons_iff, pyLtB_cons_iff]
    rcases Nat.lt_trichotomy a.toNat b.toNat with hlt | heq | hgt
    · exact Or.inl (Or.inl hlt)
    · have hab : a = b := char_toNat_inj heq
      subst hab
      have hne : as ≠ bs := fun e => h (by rw [e])
      rcases pyLtB_connected hne with h' | h'
      · exact Or.inl (Or.inr ⟨rfl, h'⟩)
      · exact Or.inr (Or.inr ⟨rfl, h'⟩)
    · exact Or.inr (Or.inl hgt)

/-- Cotransitivity: a strict comparison passes through any middle string. -/
theorem pyLtB_cotrans : ∀ {a c : Str}, pyLtB a c = true →
    ∀ (b : Str), pyLtB a b = true ∨ pyLtB b c = true
  | [], [], h, _ => by simp [pyLtB] at h
  | [], _ :: _, _, b => by
    cases b with
    | nil => exact Or.inr (by simp [pyLtB])
    | cons z bs => exact Or.inl (by simp [pyLtB])
  | _ :: _, [], h, _ => by simp [pyLtB] at h
  | x :: as, y :: cs, h, b => by
    cases b with
    | nil => exact Or.inr (by simp [pyLtB])
    | cons z bs =>
      rw [pyLtB_cons_iff] at h
      rw [pyLtB_cons_iff, pyLtB_cons_iff]
      rcases Nat.lt_trichotomy x.toNat z.toNat with h1 | h1 | h1
      · exact Or.inl (Or.inl h1)
      · rcases h with h2 | ⟨h2, htail⟩
        · exact Or.inr (Or.inl (by omega))
        · rcases pyLtB_cotrans htail bs with hl | hr
          · exact Or.inl (Or.inr ⟨h1, hl⟩)
          · exact Or.inr (Or.inr ⟨by omega, hr⟩)
      · rcases h with h2 | ⟨h2, htail⟩
        · exact Or.inr (Or.inl (by omega))
        · exact Or.inr (Or.inl (by omega))

/-- The descending sort order used to model Python `sorted(…, reverse=True)`:
`a` may stand before `b` when `a` is not strictly below `b`. -/
def geS (a b : Str) : Prop := pyLtB a b = false

instance : DecidableRel geS := fun a b => by unfold geS; infer_instance

instance : IsTotal Str geS where
  total a b := by
    unfold geS
    cases h : pyLtB a b with
    | false => exact Or.inl rfl
    | true => exact Or.inr (pyLtB_asymm h)

instance : IsTrans Str geS where
  trans a b c hab hbc := by
    unfold geS at *
    cases h : pyLtB a c with
    | false => rfl
    | true =>
      rcases pyLtB_cotrans h b with h' | h'
      · rw [hab] at h'; exact absurd h' (by simp)
      · rw [hbc] at h'; exact absurd h' (by simp)

theorem pyLtB_append_same : ∀ (p x y : Str), pyLtB (p ++ x) (p ++ y) = pyLtB x y
  | [], _, _ => rfl
  | c :: p, x, y => by
    simp only [List.cons_append, pyLtB, Nat.lt_irrefl, if_false]
    exact pyLtB_append_same p x y

theorem decVal_lt_pow {l : Str} (h : ∀ c ∈ l, isDig c) : decVal l < 10 ^ l.length := by
  induction l with
  | nil => simp [decVal]
  | cons c cs ih =>
    have hc : isDig c := h c (by simp)
    have hdv : dv c ≤ 9 := by unfold dv isDig at *; omega
    have htail := ih (fun d hd => h d (by simp [hd]))
    simp only [decVal, List.length_cons, pow_succ]
    calc dv c * 10 ^ cs.length + decVal cs
        < dv c * 10 ^ cs.length + 10 ^ cs.length := by omega
      _ = (dv c + 1) * 10 ^ cs.length := by ring
      _ ≤ 10 * 10 ^ cs.length := by
          have : dv c + 1 ≤ 10 := by omega
          exact Nat.mul_le_mul_right _ this
      _ = 10 ^ cs.length * 10 := by ring

/-- On equal-length digit strings, numeric order implies code-point
lexicographic order, even after appending arbitrary suffixes. -/
theorem pyLtB_of_decVal_lt : ∀ {a b : Str}, a.length = b.length →
    (∀ c ∈ a, isDig c) → (∀ c ∈ b, isDig c) → decVal a < decVal b →
    ∀ (u v : Str), pyLtB (a ++ u) (b ++ v) = true
  | [], [], _, _, _, hv, _, _ => by simp [decVal] at hv
  | [], _ :: _, hl, _, _, _, _, _ => by simp at hl
  | _ :: _, [], hl, _, _, _, _, _ => by simp at hl
  | x :: as, y :: bs, hl, ha, hb, hv, u, v => by
    have hlen : as.length = bs.length := by simpa using hl
    have hx : isDig x := ha x (by simp)
    have hy : isDig y := hb y (by simp)
    simp only [List.cons_append]
    rw [pyLtB_cons_iff]
    rcases Nat.lt_trichotomy x.toNat y.toNat with h1 | h1 | h1
    · exact Or.inl h1
    · have hdveq : dv x = dv y := by unfold dv; omega
      have htails : decVal as < decVal bs := by
        simp only [decVal, hlen, hdveq] at hv; omega
      exact Or.inr ⟨h1, pyLtB_of_decVal_lt hlen (fun c hc => ha c (by simp [hc]))
        (fun c hc => hb c (by simp [hc])) htails u v⟩
    · -- the head of `a` is the larger digit: contradicts `decVal a < decVal b`
      exfalso
      have hdv : dv y < dv x := by unfold dv isDig at *; omega
      have hbnd : decVal bs < 10 ^ bs.length :=
        decVal_lt_pow (fun c hc => hb c (by simp [hc]))
      have : decVal (y :: bs) < decVal (x :: as) := by
        simp only [decVal, hlen]
        calc dv y * 10 ^ bs.length + decVal bs
            < dv y * 10 ^ bs.length + 10 ^ bs.length := by omega
          _ = (dv y + 1) * 10 ^ bs.length := by ring
          _ ≤ dv x * 10 ^ bs.length := Nat.mul_le_mul_right _ (by omega)
          _ ≤ dv x * 10 ^ bs.length + decVal as := Nat.le_add_right _ _
      omega

/- ── Python `int(…)` and whitespace stripping ───────────────────────────── -/

/-- Python `str.strip()` whitespace (restricted to the ASCII whitespace
characters; exotic Unicode spaces are outside this model). -/
def isWSB (c : Char) : Bool :=
  c = ' ' || c = '\t' || c = '\n' || c = '\r' || c.toNat = 11 || c.toNat = 12

/-- Python `str.strip()`: drop whitespace from both ends. -/
def stripWS (s : Str) : Str := ((s.dropWhile isWSB).reverse.dropWhile isWSB).reverse

/-- The digits of a candidate numeral, or `none` when it is not all digits. -/
def digitsVal (s : Str) : Option Nat :=
  if s ≠ [] ∧ s.all isDigB then some (decVal s) else none

/-- Python `int(str)` (ASCII scope): strip whitespace, allow one sign, then
require a nonempty run of decimal digits. -/
def pyParseInt (s : Str) : Option Int :=
  match stripWS s with
  | [] => none
  | c :: rest =>
    if c = '+' then (digitsVal rest).map (fun n => (n : Int))
    else if c = '-' then (digitsVal rest).map (fun n => -(n : Int))
    else (digitsVal (c :: rest)).map (fun n => (n : Int))

theorem isWSB_lt_48 {c : Char} (h : isWSB c = true) : c.toNat < 48 := by
  simp only [isWSB, Bool.or_eq_true, decide_eq_true_eq] at h
  rcases h with ((((h | h) | h) | h) | h) | h <;> first | (subst h; decide) | omega

theorem stripWS_of_digits {s : Str} (hd : ∀ c ∈ s, isDig c) : stripWS s = s := by
  have hws : ∀ c ∈ s, isWSB c = false := by
    intro c hc
    cases hw : isWSB c with
    | false => rfl
    | true =>
      have h1 := isWSB_lt_48 hw
      have h2 := (hd c hc).1
      omega
  have h1 : s.dropWhile isWSB = s := by
    cases s with
    | nil => rfl
    | cons c cs => rw [List.dropWhile_cons, hws c (by simp)]; simp
  have h2 : s.reverse.dropWhile isWSB = s.reverse := by
    cases hrev : s.reverse with
    | nil => rfl
    | cons c cs =>
      have hc : c ∈ s := by
        rw [← List.mem_reverse, hrev]; simp
      rw [List.dropWhile_cons, hws c hc]; simp
  unfold stripWS
  rw [h1, h2, List.reverse_reverse]

theorem pyParseInt_digits {s : Str} (hne : s ≠ []) (hd : ∀ c ∈ s, isDig c) :
    pyParseInt s = some (decVal s) := by
  unfold pyParseInt
  rw [stripWS_of_digits hd]
  cases s with
  | nil => exact absurd rfl hne
  | cons c cs =>
    have hc : isDig c := hd c (by simp)
    have hplus : c ≠ '+' := by rintro rfl; revert hc; decide
    have hminus : c ≠ '-' := by rintro rfl; revert hc; decide
    simp only [hplus, hminus, if_false]
    have hall : (c :: cs).all isDigB = true := by
      rw [List.all_eq_true]
      intro x hx
      simpa [isDigB] using hd x hx
    simp [digitsVal, hall]

/- ── UTC calendar conversion and `%d_%b_%Y` formatting ──────────────────── -/

/-- Days-since-epoch to (year, month, day) in the proleptic Gregorian
calendar, the conversion performed by `time.gmtime` /
`datetime.utcfromtimestamp`. -/
def civilFromDays (z : Int) : Int × Nat × Nat :=
  let z2 := z + 719468
  let era : Int := z2.fdiv 146097
  let doe : Nat := (z2 - era * 146097).toNat
  let yoe : Nat := (doe - doe / 1460 + doe / 36524 - doe / 146096) / 365
  let y : Int := (yoe : Int) + era * 400
  let doy : Nat := doe - (365 * yoe + yoe / 4 - yoe / 100)
  let mp : Nat := (5 * doy + 2) / 153
  let d : Nat := doy - (153 * mp + 2) / 5 + 1
  let m : Nat := if mp < 10 then mp + 3 else mp - 9
  (if m ≤ 2 then y + 1 else y, m, d)

/-- `strftime("%b").upper()` in the C locale. -/
def monthAbbrev : Nat → Str
  | 1 => 'J' :: 'A' :: ['N']
  | 2 => 'F' :: 'E' :: ['B']
  | 3 => 'M' :: 'A' :: ['R']
  | 4 => 'A' :: 'P' :: ['R']
  | 5 => 'M' :: 'A' :: ['Y']
  | 6 => 'J' :: 'U' :: ['N']
  | 7 => 'J' :: 'U' :: ['L']
  | 8 => 'A' :: 'U' :: ['G']
  | 9 => 'S' :: 'E' :: ['P']
  | 10 => 'O' :: 'C' :: ['T']
  | 11 => 'N' :: 'O' :: ['V']
  | 12 => 'D' :: 'E' :: ['C']
  | _ => []

/-- `strftime("%Y")` (years below 1000 or negative never arise from the
timestamps this pipeline handles). -/
def yearStr (y : Int) : Str := if y < 0 then '-' :: decRepr (-y).toNat else decRepr y.toNat

/-- The UTC date tag of a millisecond epoch timestamp, formatted
`DD_MON_YYYY` in uppercase: the embedding of
`time.strftime("%d_%b_%Y", time.gmtime(ms / 1000.0)).upper()` (equally of
`datetime.utcfromtimestamp(ms / 1000.0).strftime("%d_%b_%Y").upper()`).
Division is exact here; double-precision rounding of `ms / 1000.0`, which
only matters beyond 2^52 milliseconds, is outside this model. -/
def utcDateTag (ms : Int) : Str :=
  let secs := ms.fdiv 1000
  let days := secs.fdiv 86400
  let c := civilFromDays days
  pad2 c.2.2 ++ '_' :: monthAbbrev c.2.1 ++ '_' :: yearStr c.1

/-- Calendar anchor: the epoch itself. -/
theorem utcDateTag_epoch : utcDateTag 0 = "01_JAN_1970".toList := by decide

/-- Calendar anchor: the last millisecond of 2023 and the first of 2024. -/
theorem utcDateTag_year_boundary :
    utcDateTag 1704067199999 = "31_DEC_2023".toList ∧
    utcDateTag 1704067200000 = "01_JAN_2024".toList := by decide

/-- Calendar anchor: a leap day. -/
theorem utcDateTag_leap_day : utcDateTag 1709164800000 = "29_FEB_2024".toList := by decide

/- ── The two naming-service implementations ─────────────────────────────── -/

namespace Dump

/-- `dump.py extract_date_from_filename` (strict mode): split on `_`, parse
the second segment as an integer millisecond timestamp, and raise
`ValueError` (the spec's `MalformedNameError`) when the filename is
malformed.  `Except.error` carries the exception message. -/
def extract_date_from_filename (filename : Str) : Except Str Str :=
  let parts := List.splitOn '_' filename
  if parts.length < 2 then .error ("Unexpected format: ".toList ++ filename)
  else
    match pyParseInt (parts.getD 1 []) with
    | none => .error ('\'' :: parts.getD 1 [] ++
        "' is not a valid millisecond timestamp in ".toList ++ filename)
    | some ts => .ok (utcDateTag ts)

end Dump

namespace H

/-- `lambda_handler.py extract_date_from_filename` (lenient mode): the same
parse, but a filename with fewer than two `_`-segments uses the current time
(`int(time.time() * 1000)`), and a failing parse falls back to the current
UTC date (`time.gmtime()`); `nowMs` models the wall clock at the call. -/
def extract_date_from_filename (nowMs : Int) (filename : Str) : Str :=
  let parts := List.splitOn '_' filename
  if parts.length < 2 then utcDateTag nowMs
  else
    match pyParseInt (parts.getD 1 []) with
    | some ts => utcDateTag ts
    | none => utcDateTag nowMs

end H

/-- C5: for every filename whose second `_`-segment parses as an integer
millisecond timestamp `ms`, both naming-service implementations return the
UTC calendar date of `ms` formatted `DD_MON_YYYY` uppercase (`utcDateTag`),
and the lenient implementation's result does not depend on the wall clock
`nowMs` (both call only UTC conversions, so no local time zone enters). -/
theorem claim5_date_tag_valid_filenames (f : Str) (ms nowMs : Int)
    (hlen : 2 ≤ (List.splitOn '_' f).length)
    (hparse : pyParseInt ((List.splitOn '_' f).getD 1 []) = some ms) :
    Dump.extract_date_from_filename f = Except.ok (utcDateTag ms) ∧
    H.extract_date_from_filename nowMs f = utcDateTag ms := by
  constructor
  · simp only [Dump.extract_date_from_filename]
    rw [if_neg (by omega), hparse]
  · simp only [H.extract_date_from_filename]
    rw [if_neg (by omega), hparse]

/-- Witness for C5 at a concrete filename: `86400000` ms is the second day of
the epoch. -/
theorem claim5_witness :
    Dump.extract_date_from_filename "IMG_86400000_party.jpg".toList =
      Except.ok (utcDateTag 86400000) ∧
    H.extract_date_from_filename 0 "IMG_86400000_party.jpg".toList =
      utcDateTag 86400000 :=
  claim5_date_tag_valid_filenames "IMG_86400000_party.jpg".toList 86400000 0
    (by decide) (by decide)

/-- The concrete tag the C5 witness produces. -/
theorem date_tag_example :
    H.extract_date_from_filename 0 "IMG_86400000_party.jpg".toList =
      "02_JAN_1970".toList := by decide

/-- C6: on a malformed filename (fewer than two `_`-segments, or a second
segment that is not an integer) the strict implementation fails with a
`ValueError` (the spec's `MalformedNameError`) while the lenient one returns
the current UTC date tag. -/
theorem claim6_malformed_filenames (f : Str) (nowMs : Int)
    (hm : (List.splitOn '_' f).length < 2 ∨
      pyParseInt ((List.splitOn '_' f).getD 1 []) = none) :
    (∃ msg, Dump.extract_date_from_filename f = Except.error msg) ∧
    H.extract_date_from_filename nowMs f = utcDateTag nowMs := by
  by_cases hl : (List.splitOn '_' f).length < 2
  · constructor
    · refine ⟨"Unexpected format: ".toList ++ f, ?_⟩
      simp only [Dump.extract_date_from_filename]
      rw [if_pos hl]
    · simp only [H.extract_date_from_filename]
      rw [if_pos hl]
  · have hp : pyParseInt ((List.splitOn '_' f).getD 1 []) = none := hm.resolve_left hl
    constructor
    · refine ⟨'\'' :: (List.splitOn '_' f).getD 1 [] ++
        "' is not a valid millisecond timestamp in ".toList ++ f, ?_⟩
      simp only [Dump.extract_date_from_filename]
      rw [if_neg hl, hp]
    · simp only [H.extract_date_from_filename]
      rw [if_neg hl, hp]

/-- Witness for C6 at a concrete malformed filename (non-integer second
segment). -/
theorem claim6_witness :
    (∃ msg, Dump.extract_date_from_filename "IMG_abc_1.jpg".toList =
      Except.error msg) ∧
    H.extract_date_from_filename 123456789000 "IMG_abc_1.jpg".toList =
      utcDateTag 123456789000 :=
  claim6_malformed_filenames "IMG_abc_1.jpg".toList 123456789000 (Or.inr (by decide))

/- ── lambda_orchestrator.py: job admission and dispatch ─────────────────── -/

namespace Orch

/-- One submitted image: `{filename, data}`; `data` stands for the already
base64-decoded bytes. -/
structure Image where
  filename : Str
  data : Bytes
deriving DecidableEq

/-- The env defaults `S3_BUCKET_NAME=divinepic-test`. -/
def S3_BUCKET : Str := "divinepic-test".toList

/-- The SSM name `/divinepic/jobs/{job_id}/status`. -/
def statusParamName (jobId : Str) : Str :=
  "/divinepic/jobs/".toList ++ jobId ++ "/status".toList

/-- The SSM name `/divinepic/jobs/{job_id}/instance_id`. -/
def instanceParamName (jobId : Str) : Str :=
  "/divinepic/jobs/".toList ++ jobId ++ "/instance_id".toList

/-- The batch input key `jobs/{job_id}/input/{idx:03d}_{filename}`. -/
def s3KeyFor (jobId : Str) (idx : Nat) (filename : Str) : Str :=
  "jobs/".toList ++ jobId ++ "/input/".toList ++ pad3 idx ++ '_' :: filename

/-- The job id `f"job_{int(time.time())}_{uuid.uuid4().hex[:8]}"`
generated at admission: epoch seconds then a random suffix. -/
def jobIdOf (epochSecs : Nat) (suffix : Str) : Str :=
  "job_".toList ++ decRepr epochSecs ++ '_' :: suffix

/-- Oracle for the external calls the orchestrator makes; `true` means the
call raises. -/
structure Oracle where
  uploadFail : Nat → Bool
  runInstancesFail : Bool
  statusPutFail : Bool
  instancePutFail : Bool

/-- The `upload_images_to_s3` loop from index `idx` on: the result
(`Except` models the re-raised `put_object` exception) together with the S3
writes actually performed, in order.  A failing put leaves the writes of the
previous iterations in place. -/
def uploadLoop (fail : Nat → Bool) (jobId : Str) :
    Nat → List Image → Except Unit (List Str) × List (Str × Bytes)
  | _, [] => (.ok [], [])
  | idx, img :: rest =>
    if fail idx then (.error (), [])
    else
      let put := (s3KeyFor jobId idx img.filename, img.data)
      let (r, puts) := uploadLoop fail jobId (idx + 1) rest
      match r with
      | .ok keys => (.ok (s3KeyFor jobId idx img.filename :: keys), put :: puts)
      | .error e => (.error e, put :: puts)

/-- `upload_images_to_s3(images, job_id)`. -/
def upload_images_to_s3 (fail : Nat → Bool) (images : List Image) (jobId : Str) :
    Except Unit (List Str) × List (Str × Bytes) :=
  uploadLoop fail jobId 0 images

/-- The keys `upload_images_to_s3` produces from index `idx` on. -/
def keyList (jobId : Str) : Nat → List Image → List Str
  | _, [] => []
  | idx, img :: rest => s3KeyFor jobId idx img.filename :: keyList jobId (idx + 1) rest

/-- `launch_gpu_instance`: `run_instances` first; only on its success the two
SSM parameters (`status=processing`, then the instance id) are written, each
write itself failable.  The returned list is the SSM write trace. -/
def launch_gpu_instance (o : Oracle) (jobId instanceId : Str) :
    Except Unit Str × List (Str × Str) :=
  if o.runInstancesFail then (.error (), [])
  else if o.statusPutFail then (.error (), [])
  else if o.instancePutFail then
    (.error (), [(statusParamName jobId, "processing".toList)])
  else
    (.ok instanceId,
      [(statusParamName jobId, "processing".toList),
       (instanceParamName jobId, instanceId)])

/-- Everything the orchestrator run wrote or called: S3 puts, SSM parameter
puts, and the job ids for which `run_instances` was invoked. -/
structure World where
  s3Puts : List (Str × Bytes)
  ssmPuts : List (Str × Str)
  ec2Runs : List Str
deriving DecidableEq

inductive Body
  | err (msg : Str)
  | success (job_id instance_id : Str) (images_count : Nat) (status : Str)
deriving DecidableEq

structure Response where
  statusCode : Nat
  body : Body
deriving DecidableEq

/-- The orchestrator's event: `images` present or absent. -/
structure Event where
  images : Option (List Image)

/-- `lambda_handler` of lambda_orchestrator.py.  `jobId` and `instanceId`
stand for the freshly generated job id and the id EC2 returns; the outer
`except` turns any raised exception into a 500 response. -/
def lambda_handler (o : Oracle) (jobId instanceId : Str) (ev : Event) :
    Response × World :=
  match ev.images with
  | none =>
    (⟨400, .err "Missing 'images' in request body".toList⟩, ⟨[], [], []⟩)
  | some images =>
    if images.isEmpty then
      (⟨400, .err "No images provided".toList⟩, ⟨[], [], []⟩)
    else
      match upload_images_to_s3 o.uploadFail images jobId with
      | (.error _, puts) =>
        (⟨500, .err "Failed to start image processing job".toList⟩, ⟨puts, [], []⟩)
      | (.ok _keys, puts) =>
        match launch_gpu_instance o jobId instanceId with
        | (.error _, ssmW) =>
          (⟨500, .err "Failed to start image processing job".toList⟩,
            ⟨puts, ssmW, [jobId]⟩)
        | (.ok iid, ssmW) =>
          (⟨200, .success jobId iid images.length "processing".toList⟩,
            ⟨puts, ssmW, [jobId]⟩)

/-- The worker user-data script's URL template
`https://{S3_BUCKET}.s3.amazonaws.com/{s3_key}` (no region segment). -/
def worker_public_url (bucket key : Str) : Str :=
  "https://".toList ++ bucket ++ ".s3.amazonaws.com/".toList ++ key

theorem keyList_length (jobId : Str) :
    ∀ (idx : Nat) (imgs : List Image), (keyList jobId idx imgs).length = imgs.length
  | _, [] => rfl
  | idx, _ :: rest => by
    simp [keyList, keyList_length jobId (idx + 1) rest]

theorem s3KeyFor_inj {jobId : Str} {i j : Nat} {fi fj : Str}
    (h : s3KeyFor jobId i fi = s3KeyFor jobId j fj) : i = j ∧ fi = fj := by
  unfold s3KeyFor at h
  simp only [List.append_assoc] at h
  have h1 := List.append_cancel_left h
  have h2 := List.append_cancel_left h1
  have h3 := List.append_cancel_left h2
  have h4 := underscore_split
    (fun c hc => ne_underscore_of_isDig (isDig_mem_pad3 hc))
    (fun c hc => ne_underscore_of_isDig (isDig_mem_pad3 hc)) h3
  exact ⟨pad3_inj h4.1, h4.2⟩

theorem mem_keyList {jobId : Str} {k : Str} :
    ∀ {idx : Nat} {imgs : List Image}, k ∈ keyList jobId idx imgs →
      ∃ i f, idx ≤ i ∧ k = s3KeyFor jobId i f
  | idx, img :: rest, h => by
    rcases List.mem_cons.1 h with h | h
    · exact ⟨idx, img.filename, le_rfl, h⟩
    · obtain ⟨i, f, hi, hk⟩ := mem_keyList h
      exact ⟨i, f, by omega, hk⟩

theorem keyList_nodup (jobId : Str) :
    ∀ (idx : Nat) (imgs : List Image), (keyList jobId idx imgs).Nodup
  | _, [] => List.nodup_nil
  | idx, img :: rest => by
    rw [keyList, List.nodup_cons]
    refine ⟨fun hmem => ?_, keyList_nodup jobId (idx + 1) rest⟩
    obtain ⟨i, f, hi, hk⟩ := mem_keyList hmem
    have := (s3KeyFor_inj hk).1
    omega

theorem keyList_getD (jobId : Str) :
    ∀ (idx i : Nat) (imgs : List Image), i < imgs.length →
      (keyList jobId idx imgs).getD i [] =
        s3KeyFor jobId (idx + i) ((imgs.getD i ⟨[], []⟩).filename)
  | _, _, [], h => by simp at h
  | idx, 0, img :: rest, _ => by simp [keyList]
  | idx, i + 1, img :: rest, h => by
    have hi : i < rest.length := by simpa using h
    have := keyList_getD jobId (idx + 1) i rest hi
    simp only [keyList, List.getD_cons_succ, this]
    congr 1
    omega

/-- The S3 writes `upload_images_to_s3` performs when every put succeeds. -/
def putsList (jobId : Str) : Nat → List Image → List (Str × Bytes)
  | _, [] => []
  | idx, img :: rest =>
    (s3KeyFor jobId idx img.filename, img.data) :: putsList jobId (idx + 1) rest

theorem putsList_length (jobId : Str) :
    ∀ (idx : Nat) (imgs : List Image), (putsList jobId idx imgs).length = imgs.length
  | _, [] => rfl
  | idx, _ :: rest => by simp [putsList, putsList_length jobId (idx + 1) rest]

theorem putsList_map_fst (jobId : Str) :
    ∀ (idx : Nat) (imgs : List Image),
      (putsList jobId idx imgs).map Prod.fst = keyList jobId idx imgs
  | _, [] => rfl
  | idx, _ :: rest => by simp [putsList, keyList, putsList_map_fst jobId (idx + 1) rest]

theorem uploadLoop_all_ok (jobId : Str) :
    ∀ (idx : Nat) (imgs : List Image),
      uploadLoop (fun _ => false) jobId idx imgs =
        (.ok (keyList jobId idx imgs), putsList jobId idx imgs)
  | _, [] => rfl
  | idx, img :: rest => by
    rw [uploadLoop]
    simp [uploadLoop_all_ok jobId (idx + 1) rest, keyList, putsList]

end Orch

/- ── lambda_status_checker.py: job status tracking ──────────────────────── -/

namespace StatusChecker

/-- Outcome of `ec2.describe_instances` for one instance id. -/
inductive Ec2Outcome
  | failure
  | noReservations
  | found (state ty : Str) (ip : Option Str)

/-- The external stores the status checker reads: SSM parameters (`none`
models `ParameterNotFound`), EC2 instance descriptions, and S3 object
bodies (`none` models a failing `get_object`). -/
structure World where
  ssm : Str → Option Str
  ec2 : Str → Ec2Outcome
  s3 : Str → Option Str

/-- The JSON document `get_job_status` returns; absent keys are `none`. -/
structure JobInfo where
  job_id : Str
  status : Str
  instance_id : Option Str := none
  instance_state : Option Str := none
  instance_type : Option Str := none
  instance_ip : Option Str := none
  results : Option Str := none
  results_url : Option Str := none
  results_error : Option Str := none
deriving DecidableEq

/-- The results key `jobs/{job_id}/results.json`. -/
def resultsKeyFor (jobId : Str) : Str :=
  "jobs/".toList ++ jobId ++ "/results.json".toList

/-- `get_job_status`: a missing status parameter reads as `"unknown"`, a
missing instance parameter (or a falsy, empty one) skips the EC2 lookup, a
failing EC2 lookup only sets `instance_state="unknown"`, and a failing
results fetch only sets `results_error`.  The function is total: no path
raises. -/
def get_job_status (w : World) (job_id : Str) : JobInfo :=
  let status := (w.ssm (Orch.statusParamName job_id)).getD "unknown".toList
  let instance_id := w.ssm (Orch.instanceParamName job_id)
  let base : JobInfo := { job_id := job_id, status := status, instance_id := instance_id }
  let withInst : JobInfo :=
    match instance_id with
    | none => base
    | some iid =>
      if iid.isEmpty then base
      else
        match w.ec2 iid with
        | .failure => { base with instance_state := some "unknown".toList }
        | .noReservations => base
        | .found st ty ip =>
          { base with
            instance_state := some st
            instance_type := some ty
            instance_ip := ip }
  if status = "completed".toList then
    match w.s3 (resultsKeyFor job_id) with
    | some data =>
      { withInst with
        results := some data
        results_url := some ("s3://divinepic-test/".toList ++ resultsKeyFor job_id) }
    | none =>
      { withInst with results_error := some "Failed to get results".toList }
  else withInst

theorem get_job_status_job_id (w : World) (j : Str) :
    (get_job_status w j).job_id = j := by
  simp only [get_job_status]
  repeat' split
  all_goals rfl

theorem get_job_status_status (w : World) (j : Str) :
    (get_job_status w j).status =
      (w.ssm (Orch.statusParamName j)).getD "unknown".toList := by
  simp only [get_job_status]
  repeat' split
  all_goals rfl

/-- Substring containment, for Python `"/status" in param_name`. -/
def startsL : Str → Str → Bool
  | [], _ => true
  | _ :: _, [] => false
  | a :: as, b :: bs => a == b && startsL as bs

def hasSub (needle : Str) : Str → Bool
  | [] => startsL needle []
  | c :: rest => startsL needle (c :: rest) || hasSub needle rest

/-- The job ids `list_recent_jobs` extracts: parameters whose name contains
`/status`, each cut at the fourth `/`-segment
(`/divinepic/jobs/{job_id}/status`). -/
def jobIdsOf (params : List Str) : List Str :=
  (params.filter (fun n => hasSub "/status".toList n)).map
    (fun n => (List.splitOn '/' n).getD 3 [])

/-- `list_recent_jobs`: collect ids into a set, sort descending
(`sorted(…, reverse=True)` under Python's code-point string order), truncate
to `limit`, and fetch each job's status. -/
def list_recent_jobs (w : World) (params : List Str) (limit : Nat) : List JobInfo :=
  ((List.insertionSort geS (jobIdsOf params).dedup).take limit).map (get_job_status w)

end StatusChecker

/-- The SSM parameter store that results from a write trace: the last write
to a name wins. -/
def storeOfPuts (puts : List (Str × Str)) : Str → Option Str :=
  fun n => (puts.reverse.find? (fun p => p.1 == n)).map Prod.snd

/-- The status-checker world visible after an orchestrator run: its SSM
writes, with the EC2 and S3 oracles failing (their behavior is irrelevant
to the status field). -/
def worldAfter (w : Orch.World) : StatusChecker.World :=
  { ssm := storeOfPuts w.ssmPuts, ec2 := fun _ => .failure, s3 := fun _ => none }

/-- C4: with every put succeeding, a batch of `N` images yields exactly `N`
S3 writes under `jobs/{job_id}/input/`, the key of the `i`-th write is
`jobs/{job_id}/input/{i:03d}_{filename_i}`, and the keys are pairwise
distinct for every choice of filenames (equal filenames included) — the
zero-padded index prefix makes collisions impossible by construction. -/
theorem claim4_batch_keys (jobId : Str) (imgs : List Orch.Image) :
    (Orch.upload_images_to_s3 (fun _ => false) imgs jobId).1 =
      Except.ok (Orch.keyList jobId 0 imgs) ∧
    (Orch.upload_images_to_s3 (fun _ => false) imgs jobId).2.length = imgs.length ∧
    (Orch.upload_images_to_s3 (fun _ => false) imgs jobId).2.map Prod.fst =
      Orch.keyList jobId 0 imgs ∧
    (Orch.keyList jobId 0 imgs).Nodup ∧
    (∀ i, i < imgs.length →
      (Orch.keyList jobId 0 imgs).getD i [] =
        Orch.s3KeyFor jobId i ((imgs.getD i ⟨[], []⟩).filename)) := by
  have h := Orch.uploadLoop_all_ok jobId 0 imgs
  unfold Orch.upload_images_to_s3
  rw [h]
  refine ⟨rfl, Orch.putsList_length jobId 0 imgs, Orch.putsList_map_fst jobId 0 imgs,
    Orch.keyList_nodup jobId 0 imgs, fun i hi => ?_⟩
  have := Orch.keyList_getD jobId 0 i imgs hi
  simpa using this

/-- Witness for C4: two images with the same filename still get distinct
keys. -/
theorem claim4_witness :
    (Orch.keyList "job_1_aa".toList 0
      [⟨"a.jpg".toList, [0]⟩, ⟨"a.jpg".toList, [1]⟩]).Nodup ∧
    (Orch.keyList "job_1_aa".toList 0
      [⟨"a.jpg".toList, [0]⟩, ⟨"a.jpg".toList, [1]⟩]).getD 1 [] =
      Orch.s3KeyFor "job_1_aa".toList 1 "a.jpg".toList :=
  ⟨(claim4_batch_keys "job_1_aa".toList
      [⟨"a.jpg".toList, [0]⟩, ⟨"a.jpg".toList, [1]⟩]).2.2.2.1,
   (claim4_batch_keys "job_1_aa".toList
      [⟨"a.jpg".toList, [0]⟩, ⟨"a.jpg".toList, [1]⟩]).2.2.2.2 1 (by decide)⟩

theorem statusParamName_ne_instanceParamName (j : Str) :
    Orch.statusParamName j ≠ Orch.instanceParamName j := by
  intro h
  unfold Orch.statusParamName Orch.instanceParamName at h
  simp only [List.append_assoc] at h
  have h1 := List.append_cancel_left h
  have h2 := List.append_cancel_left h1
  exact absurd h2 (by decide)

theorem get_job_status_of_no_ssm (w : StatusChecker.World) (j : Str)
    (hw : ∀ n, w.ssm n = none) :
    (StatusChecker.get_job_status w j).status = "unknown".toList := by
  rw [StatusChecker.get_job_status_status, hw]
  rfl

/-- The three shapes the orchestrator's SSM write trace can take, and the
fact that a failing `run_instances` leaves it empty. -/
theorem handler_ssmPuts_cases (o : Orch.Oracle) (jobId instanceId : Str)
    (ev : Orch.Event) :
    ((Orch.lambda_handler o jobId instanceId ev).2.ssmPuts = [] ∨
     (Orch.lambda_handler o jobId instanceId ev).2.ssmPuts =
       [(Orch.statusParamName jobId, "processing".toList)] ∨
     (Orch.lambda_handler o jobId instanceId ev).2.ssmPuts =
       [(Orch.statusParamName jobId, "processing".toList),
        (Orch.instanceParamName jobId, instanceId)]) ∧
    (o.runInstancesFail = true →
      (Orch.lambda_handler o jobId instanceId ev).2.ssmPuts = []) := by
  rcases ev with ⟨images⟩
  cases images with
  | none => exact ⟨Or.inl rfl, fun _ => rfl⟩
  | some imgs =>
    by_cases he : imgs.isEmpty
    · exact ⟨Or.inl (by simp [Orch.lambda_handler, he]),
        fun _ => by simp [Orch.lambda_handler, he]⟩
    · rcases hu : Orch.upload_images_to_s3 o.uploadFail imgs jobId with ⟨r, puts⟩
      cases r with
      | error e =>
        exact ⟨Or.inl (by simp [Orch.lambda_handler, he, hu]),
          fun _ => by simp [Orch.lambda_handler, he, hu]⟩
      | ok keys =>
        by_cases h1 : o.runInstancesFail = true
        · exact ⟨Or.inl (by
            simp [Orch.lambda_handler, Orch.launch_gpu_instance, he, hu, h1]),
            fun _ => by
            simp [Orch.lambda_handler, Orch.launch_gpu_instance, he, hu, h1]⟩
        · rw [Bool.not_eq_true] at h1
          refine ⟨?_, fun hf => by rw [h1] at hf; exact absurd hf (by simp)⟩
          by_cases h2 : o.statusPutFail = true
          · exact Or.inl (by
              simp [Orch.lambda_handler, Orch.launch_gpu_instance, he, hu, h1, h2])
          · rw [Bool.not_eq_true] at h2
            by_cases h3 : o.instancePutFail = true
            · exact Or.inr (Or.inl (by
                simp [Orch.lambda_handler, Orch.launch_gpu_instance, he, hu, h1, h2, h3]))
            · rw [Bool.not_eq_true] at h3
              exact Or.inr (Or.inr (by
                simp [Orch.lambda_handler, Orch.launch_gpu_instance, he, hu, h1, h2, h3]))

/-- C1 as the code actually behaves (the claim's `status = "error"` write
does not exist): the orchestrator never writes a `queued` status — the only
value it ever writes to the job's status parameter is `processing`, and that
only after `run_instances` has succeeded — and when `run_instances` fails it
writes no SSM parameter at all, so polling the job afterwards reports
`unknown` (never `queued`, but also not `error`). -/
theorem claim1_trigger_failure_leaves_no_status
    (o : Orch.Oracle) (jobId instanceId : Str) (ev : Orch.Event) :
    (∀ v, (Orch.statusParamName jobId, v) ∈
        (Orch.lambda_handler o jobId instanceId ev).2.ssmPuts →
        v = "processing".toList) ∧
    (o.runInstancesFail = true →
      (Orch.lambda_handler o jobId instanceId ev).2.ssmPuts = [] ∧
      (StatusChecker.get_job_status
        (worldAfter (Orch.lambda_handler o jobId instanceId ev).2) jobId).status =
        "unknown".toList) := by
  obtain ⟨hcases, hfail⟩ := handler_ssmPuts_cases o jobId instanceId ev
  constructor
  · intro v hv
    rcases hcases with h | h | h <;> rw [h] at hv
    · simp at hv
    · simp at hv
      exact hv
    · simp at hv
      rcases hv with hv | ⟨hbad, _⟩
      · exact hv
      · exact absurd hbad (statusParamName_ne_instanceParamName jobId)
  · intro hf
    have hempty := hfail hf
    refine ⟨hempty, ?_⟩
    apply get_job_status_of_no_ssm
    intro n
    show storeOfPuts (Orch.lambda_handler o jobId instanceId ev).2.ssmPuts n = none
    rw [hempty]
    rfl

/-- Counterexample to C1 as stated: one image, upload succeeds,
`run_instances` raises.  The handler answers 500, the upload remains, and
the job's status afterwards is `unknown` — not `error` as the claim says. -/
theorem claim1_counterexample :
    (Orch.lambda_handler ⟨fun _ => false, true, false, false⟩ "job_1_aa".toList
        "i-1".toList ⟨some [⟨"a.jpg".toList, [0]⟩]⟩).2.s3Puts.length = 1 ∧
    (Orch.lambda_handler ⟨fun _ => false, true, false, false⟩ "job_1_aa".toList
        "i-1".toList ⟨some [⟨"a.jpg".toList, [0]⟩]⟩).1.statusCode = 500 ∧
    (StatusChecker.get_job_status
      (worldAfter (Orch.lambda_handler ⟨fun _ => false, true, false, false⟩
        "job_1_aa".toList "i-1".toList ⟨some [⟨"a.jpg".toList, [0]⟩]⟩).2)
      "job_1_aa".toList).status = "unknown".toList ∧
    (StatusChecker.get_job_status
      (worldAfter (Orch.lambda_handler ⟨fun _ => false, true, false, false⟩
        "job_1_aa".toList "i-1".toList ⟨some [⟨"a.jpg".toList, [0]⟩]⟩).2)
      "job_1_aa".toList).status ≠ "error".toList := by decide

/-- Witness for C1's amended statement at the same concrete run. -/
theorem claim1_witness :
    (Orch.lambda_handler ⟨fun _ => false, true, false, false⟩ "job_1_aa".toList
        "i-1".toList ⟨some [⟨"a.jpg".toList, [0]⟩]⟩).2.ssmPuts = [] ∧
    (StatusChecker.get_job_status
      (worldAfter (Orch.lambda_handler ⟨fun _ => false, true, false, false⟩
        "job_1_aa".toList "i-1".toList ⟨some [⟨"a.jpg".toList, [0]⟩]⟩).2)
      "job_1_aa".toList).status = "unknown".toList :=
  (claim1_trigger_failure_leaves_no_status ⟨fun _ => false, true, false, false⟩
    "job_1_aa".toList "i-1".toList ⟨some [⟨"a.jpg".toList, [0]⟩]⟩).2 rfl

/- ── lambda_handler.py: synchronous per-image processing ────────────────── -/

namespace H

/-- One detected face as the extraction adapter returns it: a normalized
embedding and a bounding box.  The numeric values are opaque to every claim,
so the float entries are uninterpreted stand-ins. -/
structure DetFace where
  emb : List Int
  bbox : List Int
deriving DecidableEq

/-- The per-face entry of a result record: `{face_id, bbox}`. -/
structure FaceRec where
  face_id : Str
  bbox : List Int
deriving DecidableEq

/-- The Elasticsearch document body `{image_name, embeds, box}`. -/
structure FaceDoc where
  image_name : Str
  embeds : List Int
  box : List Int
deriving DecidableEq

/-- Oracle for one image's processing: outcomes of the external calls and
the random values drawn (`uuid4` hex prefixes), plus what the detector
returns. -/
structure ImgOracle where
  b64Ok : Bool := true
  uploadFail : Bool := false
  decodeOk : Bool := true
  faces : List DetFace := []
  indexFail : Nat → Bool := fun _ => false
  urlUid : Str := []
  faceUid : Nat → Str := fun _ => []

/-- One per-image result record; an absent JSON key is `none`, and
`faces_indexed` models `r.get("faces_indexed", 0)` (0 when absent). -/
structure ImgResult where
  filename : Str
  s3_url : Option Str := none
  faces_detected : Nat := 0
  faces_indexed : Nat := 0
  faces : List FaceRec := []
  error : Option Str := none
deriving DecidableEq

def S3_BUCKET : Str := "divinepic-test".toList
def AWS_REGION : Str := "ap-south-1".toList

/-- The public URL template of lambda_handler.py:
`https://{S3_BUCKET}.s3.{AWS_REGION}.amazonaws.com/{s3_key}`. -/
def public_url_handler (bucket region key : Str) : Str :=
  "https://".toList ++ bucket ++ ".s3.".toList ++ region ++
    ".amazonaws.com/".toList ++ key

/-- `Path(filename).stem`: the name with its final suffix removed (a lone
leading dot is kept). -/
def stemOf (f : Str) : Str :=
  match (f.reverse.dropWhile (fun c => c ≠ '.')) with
  | [] => f
  | _ :: rest => if rest.isEmpty then f else rest.reverse

/-- `upload_image_to_s3`: the stored key
`{date_str}_{uuid4().hex[:6]}_{filename}` and the public URL returned. -/
def upload_key (nowMs : Int) (uid : Str) (filename : Str) : Str :=
  extract_date_from_filename nowMs filename ++ '_' :: uid ++ '_' :: filename

def upload_image_to_s3 (nowMs : Int) (uid : Str) (data : Bytes) (filename : Str) :
    Str × (Str × Bytes) :=
  let key := upload_key nowMs uid filename
  (public_url_handler S3_BUCKET AWS_REGION key, (key, data))

/-- The face document id `{stem}_face_{position}_{uuid4().hex[:8]}` with the
1-based detection position. -/
def face_id_for (filename : Str) (position : Nat) (uid : Str) : Str :=
  stemOf filename ++ "_face_".toList ++ decRepr position ++ '_' :: uid

/-- The indexing loop over the detected faces, 0-based position `idx`:
returns the `indexed_faces` list (an entry per successful `es.index` call)
and the full trace of `es.index` calls attempted. -/
def indexLoop (o : ImgOracle) (url filename : Str) :
    Nat → List DetFace → List FaceRec × List (Str × FaceDoc)
  | _, [] => ([], [])
  | idx, f :: rest =>
    let fid := face_id_for filename (idx + 1) (o.faceUid idx)
    let doc : FaceDoc := ⟨url, f.emb, f.bbox⟩
    let (recs, calls) := indexLoop o url filename (idx + 1) rest
    if o.indexFail idx then (recs, (fid, doc) :: calls)
    else (⟨fid, f.bbox⟩ :: recs, (fid, doc) :: calls)

/-- `process_single_image`: upload, decode, detect, index.  Returns the
result record, the S3 puts performed and the `es.index` calls attempted. -/
def process_single_image (o : ImgOracle) (nowMs : Int) (filename : Str)
    (data : Bytes) : ImgResult × List (Str × Bytes) × List (Str × FaceDoc) :=
  if o.uploadFail then
    ({ filename := filename, error := some "upload failed".toList }, [], [])
  else
    let (url, put) := upload_image_to_s3 nowMs o.urlUid data filename
    if o.decodeOk then
      let (recs, calls) := indexLoop o url filename 0 o.faces
      ({ filename := filename
         s3_url := some url
         faces_detected := o.faces.length
         faces_indexed := recs.length
         faces := recs }, [put], calls)
    else
      ({ filename := filename
         s3_url := some url
         error := some "Could not decode image".toList }, [put], [])

/-- The record the outer loop writes when `base64.b64decode` raises. -/
def decode_fail_result (filename : Str) : ImgResult :=
  { filename := filename, error := some "Failed to decode image".toList }

/-- The handler's loop over the submitted images (`so i` is image `i`'s
oracle). -/
def processImages (nowMs : Int) (so : Nat → ImgOracle) :
    Nat → List Orch.Image →
      List ImgResult × List (Str × Bytes) × List (Str × FaceDoc)
  | _, [] => ([], [], [])
  | i, im :: rest =>
    let o := so i
    let (r, ps, cs) :=
      if o.b64Ok then process_single_image o nowMs im.filename im.data
      else (decode_fail_result im.filename, [], [])
    let (rs, ps2, cs2) := processImages nowMs so (i + 1) rest
    (r :: rs, ps ++ ps2, cs ++ cs2)

/-- The events lambda_handler.py distinguishes by shape: a Function URL
event (with its HTTP method and parsed body: `none` = unparseable JSON,
`some none` = no `images` key), a direct invocation carrying an `images`
list, or anything else (with or without a `requestContext` key). -/
inductive SyncEvent
  | http (method : Str) (body : Option (Option (List Orch.Image)))
  | direct (images : List Orch.Image)
  | malformedEv (hasRequestContext : Bool)

inductive SyncBody
  | err (msg : Str)
  | info
  | summary (total_images total_faces total_indexed errors : Nat)
      (results : List ImgResult)
deriving DecidableEq

/-- A Function URL answer carries a status code; a direct invocation answer
is the bare JSON document. -/
inductive SyncRet
  | http (code : Nat) (body : SyncBody)
  | plain (body : SyncBody)
deriving DecidableEq

/-- The side effects of one handler run. -/
structure SyncWorld where
  s3Puts : List (Str × Bytes)
  esCalls : List (Str × FaceDoc)
deriving DecidableEq

/-- Whether an answer is a rejection (a 400/500-class code or an error
body). -/
def isRejection : SyncRet → Bool
  | .http code body => decide (400 ≤ code) ||
      (match body with | .err _ => true | _ => false)
  | .plain body => match body with | .err _ => true | _ => false

def summarize (rs : List ImgResult) : SyncBody :=
  .summary rs.length ((rs.map (fun r => r.faces_detected)).sum)
    ((rs.map (fun r => r.faces_indexed)).sum)
    (rs.countP (fun r => r.error.isSome)) rs

/-- `lambda_handler` of lambda_handler.py. -/
def lambda_handler (nowMs : Int) (so : Nat → ImgOracle) (ev : SyncEvent) :
    SyncRet × SyncWorld :=
  match ev with
  | .http method body =>
    if method = "GET".toList then (.http 200 .info, ⟨[], []⟩)
    else
      match body with
      | none => (.http 400 (.err "Invalid JSON in request body".toList), ⟨[], []⟩)
      | some none =>
        (.http 400 (.err "Missing 'images' array in request body".toList), ⟨[], []⟩)
      | some (some imgs) =>
        let (rs, ps, cs) := processImages nowMs so 0 imgs
        (.http 200 (summarize rs), ⟨ps, cs⟩)
  | .direct imgs =>
    let (rs, ps, cs) := processImages nowMs so 0 imgs
    (.plain (summarize rs), ⟨ps, cs⟩)
  | .malformedEv hasRC =>
    if hasRC then (.http 400 (.err "Invalid event format".toList), ⟨[], []⟩)
    else (.plain (.err "Invalid event format".toList), ⟨[], []⟩)

end H

/- ── dump.py: batch processing of a local folder ────────────────────────── -/

namespace Dump

/-- Oracle for one image's processing in dump.py. -/
structure Oracle where
  uploadFail : Bool := false
  readOk : Bool := true
  faces : List H.DetFace := []
  esHosts : List Str := []
  fileBytes : Bytes := []
  urlUid : Str := []
  faceUid : Nat → Str := fun _ => []

def S3_BUCKET : Str := "divinepic-test".toList
def AWS_REGION : Str := "ap-south-1".toList

/-- The public URL template of dump.py (identical in form to
lambda_handler.py's). -/
def public_url_dump (bucket region key : Str) : Str :=
  "https://".toList ++ bucket ++ ".s3.".toList ++ region ++
    ".amazonaws.com/".toList ++ key

/-- `Path(local_path).name`: the part after the last slash. -/
def baseName (p : Str) : Str := (List.splitOn '/' p).getLastD p

/-- `upload_image_flat`: derive the date tag (strict mode — a `ValueError`
propagates), build `{date}_{uuid[:6]}_{name}`, and put the object. -/
def upload_image_flat (o : Oracle) (path : Str) :
    Except Unit (Str × (Str × Bytes)) :=
  match extract_date_from_filename (baseName path) with
  | .error _ => .error ()
  | .ok dateStr =>
    if o.uploadFail then .error ()
    else
      let key := dateStr ++ '_' :: o.urlUid ++ '_' :: baseName path
      .ok (public_url_dump S3_BUCKET AWS_REGION key, (key, o.fileBytes))

/-- The per-face, per-host `es.index` call trace (`client.index` is called
for every configured host; a failure is only logged). -/
def dumpIndexLoop (o : Oracle) (url stem : Str) :
    Nat → List H.DetFace → List (Str × Str × H.FaceDoc)
  | _, [] => []
  | idx, f :: rest =>
    let fid := H.face_id_for stem (idx + 1) (o.faceUid idx)
    let doc : H.FaceDoc := ⟨url, f.emb, f.bbox⟩
    (o.esHosts.map (fun h => (h, fid, doc))) ++ dumpIndexLoop o url stem (idx + 1) rest

/-- `process_and_index_image`: upload (exceptions are caught and the image
skipped), read, detect; with no faces it returns before any index write.
Returns the S3 puts and the `es.index` calls. -/
def process_and_index_image (o : Oracle) (path : Str) :
    List (Str × Bytes) × List (Str × Str × H.FaceDoc) :=
  match upload_image_flat o path with
  | .error _ => ([], [])
  | .ok (url, put) =>
    if o.readOk then
      if o.faces.isEmpty then ([put], [])
      else ([put], dumpIndexLoop o url (baseName path) 0 o.faces)
    else ([put], [])

end Dump

/- ── Elasticsearch index writes (C7) ────────────────────────────────────── -/

namespace Es

/-- Modelled from the spec: the search index (an external Elasticsearch
cluster, outside this repository) holds one document per id;
`es_client.index(index=…, id=face_id, document=doc)` is an id-keyed upsert —
an existing document with that id is overwritten, otherwise the document is
appended.  The index is a list of `(id, body)` pairs. -/
def indexDoc (fid : Str) (doc : H.FaceDoc) :
    List (Str × H.FaceDoc) → List (Str × H.FaceDoc)
  | [] => [(fid, doc)]
  | (k, d) :: rest =>
    if k = fid then (fid, doc) :: rest else (k, d) :: indexDoc fid doc rest

/-- Read the document stored under `fid`. -/
def lookupDoc (fid : Str) (s : List (Str × H.FaceDoc)) : Option H.FaceDoc :=
  (s.find? (fun p => p.1 == fid)).map Prod.snd

/-- How many documents carry the id `fid`. -/
def docCount (fid : Str) (s : List (Str × H.FaceDoc)) : Nat :=
  s.countP (fun p => p.1 == fid)

end Es

theorem indexDoc_twice (fid : Str) (doc : H.FaceDoc) :
    ∀ s, Es.indexDoc fid doc (Es.indexDoc fid doc s) = Es.indexDoc fid doc s
  | [] => by simp [Es.indexDoc]
  | (k, d) :: rest => by
    by_cases hk : k = fid
    · simp [Es.indexDoc, hk]
    · simp [Es.indexDoc, hk, indexDoc_twice fid doc rest]

theorem lookupDoc_indexDoc (fid : Str) (doc : H.FaceDoc) :
    ∀ s, Es.lookupDoc fid (Es.indexDoc fid doc s) = some doc
  | [] => by simp [Es.indexDoc, Es.lookupDoc, List.find?]
  | (k, d) :: rest => by
    by_cases hk : k = fid
    · simp [Es.indexDoc, Es.lookupDoc, hk, List.find?]
    · have ih := lookupDoc_indexDoc fid doc rest
      simp only [Es.indexDoc, if_neg hk]
      simp only [Es.lookupDoc, List.find?] at ih ⊢
      rw [show (k == fid) = false by simpa using hk]
      exact ih

theorem docCount_indexDoc (fid : Str) (doc : H.FaceDoc) :
    ∀ s, ((s.map Prod.fst).Nodup) → Es.docCount fid (Es.indexDoc fid doc s) = 1
  | [], _ => by simp [Es.indexDoc, Es.docCount]
  | (k, d) :: rest, hnd => by
    have hnd' := hnd
    rw [List.map_cons, List.nodup_cons] at hnd'
    by_cases hk : k = fid
    · rw [show Es.indexDoc fid doc ((k, d) :: rest) = (fid, doc) :: rest from by
        simp [Es.indexDoc, hk]]
      unfold Es.docCount
      rw [List.countP_cons]
      have hzero : rest.countP (fun p => p.1 == fid) = 0 := by
        rw [List.countP_eq_zero]
        intro p hp
        simp only [beq_iff_eq]
        intro hfst
        have hmem : p.1 ∈ rest.map Prod.fst := List.mem_map_of_mem Prod.fst hp
        rw [hfst, ← hk] at hmem
        exact hnd'.1 hmem
      rw [hzero]
      simp
    · have ih := docCount_indexDoc fid doc rest hnd'.2
      rw [show Es.indexDoc fid doc ((k, d) :: rest) =
          (k, d) :: Es.indexDoc fid doc rest from by simp [Es.indexDoc, hk]]
      unfold Es.docCount at ih ⊢
      rw [List.countP_cons, ih]
      rw [show ((k, d).1 == fid) = false by simpa using hk]
      simp

/-- C7: with the index modelled as an id-keyed document store, writing the
same `face_id` with the same body twice leaves the index exactly as one
write does; the id then holds that body, and (over an index whose ids are
unique) exactly one document carries it — an upsert, never a duplicate. -/
theorem claim7_indexFace_idempotent (fid : Str) (doc : H.FaceDoc)
    (s : List (Str × H.FaceDoc)) (hnd : (s.map Prod.fst).Nodup) :
    Es.indexDoc fid doc (Es.indexDoc fid doc s) = Es.indexDoc fid doc s ∧
    Es.lookupDoc fid (Es.indexDoc fid doc s) = some doc ∧
    Es.docCount fid (Es.indexDoc fid doc s) = 1 :=
  ⟨indexDoc_twice fid doc s, lookupDoc_indexDoc fid doc s,
    docCount_indexDoc fid doc s hnd⟩

/-- Witness for C7: a concrete one-document index. -/
theorem claim7_witness :
    Es.indexDoc "f1".toList ⟨"u".toList, [0], [1, 2, 3, 4]⟩
        (Es.indexDoc "f1".toList ⟨"u".toList, [0], [1, 2, 3, 4]⟩
          [("x".toList, ⟨"v".toList, [5], [6, 7, 8, 9]⟩)]) =
      Es.indexDoc "f1".toList ⟨"u".toList, [0], [1, 2, 3, 4]⟩
        [("x".toList, ⟨"v".toList, [5], [6, 7, 8, 9]⟩)] ∧
    Es.lookupDoc "f1".toList
        (Es.indexDoc "f1".toList ⟨"u".toList, [0], [1, 2, 3, 4]⟩
          [("x".toList, ⟨"v".toList, [5], [6, 7, 8, 9]⟩)]) =
      some ⟨"u".toList, [0], [1, 2, 3, 4]⟩ ∧
    Es.docCount "f1".toList
        (Es.indexDoc "f1".toList ⟨"u".toList, [0], [1, 2, 3, 4]⟩
          [("x".toList, ⟨"v".toList, [5], [6, 7, 8, 9]⟩)]) = 1 :=
  claim7_indexFace_idempotent "f1".toList ⟨"u".toList, [0], [1, 2, 3, 4]⟩
    [("x".toList, ⟨"v".toList, [5], [6, 7, 8, 9]⟩)] (by decide)

/-- C2 as the code actually behaves: the job-submission surface (the
orchestrator) rejects a missing or empty `images` list with a 400 response
before any S3 write, SSM write or EC2 call; the synchronous processing
surface rejects a missing `images` field with no side effects, but an empty
`images` list there is accepted and answered with a success summary of zero
images — still with no object-store write and no index call. -/
theorem claim2_invalid_input_no_side_effects :
    (∀ (o : Orch.Oracle) (jobId instanceId : Str) (ev : Orch.Event),
      ev.images = none ∨ ev.images = some [] →
      (Orch.lambda_handler o jobId instanceId ev).1.statusCode = 400 ∧
      (Orch.lambda_handler o jobId instanceId ev).2 = ⟨[], [], []⟩) ∧
    (∀ (nowMs : Int) (so : Nat → H.ImgOracle),
      H.lambda_handler nowMs so (.direct []) =
        (.plain (.summary 0 0 0 0 []), ⟨[], []⟩) ∧
      (∀ (m : Str), m ≠ "GET".toList →
        H.lambda_handler nowMs so (.http m (some none)) =
          (.http 400 (.err "Missing 'images' array in request body".toList),
            ⟨[], []⟩)) ∧
      (∀ (hasRC : Bool),
        (H.lambda_handler nowMs so (.malformedEv hasRC)).2 = ⟨[], []⟩ ∧
        H.isRejection (H.lambda_handler nowMs so (.malformedEv hasRC)).1 = true)) := by
  constructor
  · rintro o jobId instanceId ⟨images⟩ (h | h) <;> subst h
    · exact ⟨rfl, rfl⟩
    · exact ⟨rfl, rfl⟩
  · intro nowMs so
    refine ⟨rfl, fun m hm => ?_, fun hasRC => ?_⟩
    · simp only [H.lambda_handler]
      rw [if_neg hm]
    · cases hasRC <;> exact ⟨rfl, rfl⟩

/-- Counterexample to C2 as stated: the synchronous surface, invoked
directly with `{"images": []}`, does not reject — it answers with a success
summary (and performs no side effects). -/
theorem claim2_counterexample :
    H.lambda_handler 0 (fun _ => {}) (.direct []) =
      (.plain (.summary 0 0 0 0 []), ⟨[], []⟩) ∧
    H.isRejection (H.lambda_handler 0 (fun _ => {}) (.direct [])).1 = false := by
  exact ⟨rfl, rfl⟩

/-- Witness for C2's amended statement: the orchestrator's 400 on an
explicit empty batch. -/
theorem claim2_witness :
    (Orch.lambda_handler ⟨fun _ => false, false, false, false⟩ "job_1_aa".toList
        "i-1".toList ⟨some []⟩).1.statusCode = 400 ∧
    (Orch.lambda_handler ⟨fun _ => false, false, false, false⟩ "job_1_aa".toList
        "i-1".toList ⟨some []⟩).2 = ⟨[], [], []⟩ :=
  claim2_invalid_input_no_side_effects.1 ⟨fun _ => false, false, false, false⟩
    "job_1_aa".toList "i-1".toList ⟨some []⟩ (Or.inr rfl)

theorem indexLoop_recs_le (o : H.ImgOracle) (url filename : Str) :
    ∀ (idx : Nat) (faces : List H.DetFace),
      (H.indexLoop o url filename idx faces).1.length ≤ faces.length
  | _, [] => le_rfl
  | idx, f :: rest => by
    have ih := indexLoop_recs_le o url filename (idx + 1) rest
    simp only [H.indexLoop]
    by_cases hf : o.indexFail idx = true
    · simp only [hf, if_true]
      simp only [List.length_cons]
      omega
    · rw [Bool.not_eq_true] at hf
      simp only [hf, Bool.false_eq_true, if_false]
      simp only [List.length_cons]
      omega

/-- C3: every result record satisfies
`0 ≤ faces_indexed ≤ faces_detected`; when `faces_detected = 0` its `faces`
list is empty and no `es.index` call was attempted — in both the synchronous
handler and the dump.py batch flow (which returns before indexing when the
detector finds no faces). -/
theorem claim3_faces_indexed_invariant (o : H.ImgOracle) (nowMs : Int)
    (filename : Str) (data : Bytes) (od : Dump.Oracle) (path : Str) :
    (H.process_single_image o nowMs filename data).1.faces_indexed ≤
      (H.process_single_image o nowMs filename data).1.faces_detected ∧
    ((H.process_single_image o nowMs filename data).1.faces_detected = 0 →
      (H.process_single_image o nowMs filename data).1.faces = [] ∧
      (H.process_single_image o nowMs filename data).2.2 = []) ∧
    (od.faces = [] → (Dump.process_and_index_image od path).2 = []) := by
  refine ⟨?_, ?_, ?_⟩
  · by_cases hu : o.uploadFail = true
    · simp [H.process_single_image, hu]
    · rw [Bool.not_eq_true] at hu
      by_cases hd : o.decodeOk = true
      · simp only [H.process_single_image, hu, Bool.false_eq_true, if_false,
          H.upload_image_to_s3, hd, if_true]
        exact indexLoop_recs_le o _ filename 0 o.faces
      · rw [Bool.not_eq_true] at hd
        simp [H.process_single_image, hu, hd, H.upload_image_to_s3]
  · intro hzero
    by_cases hu : o.uploadFail = true
    · simp [H.process_single_image, hu]
    · rw [Bool.not_eq_true] at hu
      by_cases hd : o.decodeOk = true
      · simp only [H.process_single_image, hu, Bool.false_eq_true, if_false,
          H.upload_image_to_s3, hd, if_true] at hzero ⊢
        have hfaces : o.faces = [] := List.length_eq_zero.1 hzero
        rw [hfaces]
        exact ⟨rfl, rfl⟩
      · rw [Bool.not_eq_true] at hd
        simp [H.process_single_image, hu, hd, H.upload_image_to_s3]
  · intro hfaces
    unfold Dump.process_and_index_image
    rcases huf : Dump.upload_image_flat od path with e | ⟨url, put⟩
    · rfl
    · by_cases hr : od.readOk = true
      · simp [hr, hfaces]
      · rw [Bool.not_eq_true] at hr
        simp [hr]

/-- Witness for C3: a run with no faces detected attempts no index call. -/
theorem claim3_witness :
    (H.process_single_image {} 0 "a.jpg".toList [0]).1.faces = [] ∧
    (H.process_single_image {} 0 "a.jpg".toList [0]).2.2 = [] ∧
    (Dump.process_and_index_image {} "g/a_1_x.jpg".toList).2 = [] :=
  ⟨((claim3_faces_indexed_invariant {} 0 "a.jpg".toList [0] {}
      "g/a_1_x.jpg".toList).2.1 (by decide)).1,
   ((claim3_faces_indexed_invariant {} 0 "a.jpg".toList [0] {}
      "g/a_1_x.jpg".toList).2.1 (by decide)).2,
   (claim3_faces_indexed_invariant {} 0 "a.jpg".toList [0] {}
      "g/a_1_x.jpg".toList).2.2 rfl⟩

/-- C8: `get_job_status` on a job with no status record returns the full
JobInfo document with `status = "unknown"`; a missing instance reference is
tolerated the same way.  The function is total — no error is raised or
propagated, and no error field is set. -/
theorem claim8_unknown_job_never_raises (w : StatusChecker.World) (jobId : Str)
    (hstatus : w.ssm (Orch.statusParamName jobId) = none)
    (hinstance : w.ssm (Orch.instanceParamName jobId) = none) :
    StatusChecker.get_job_status w jobId =
      { job_id := jobId, status := "unknown".toList } := by
  simp only [StatusChecker.get_job_status, hstatus, hinstance, Option.getD_none]
  rw [if_neg (by decide)]

/-- Witness for C8: an empty parameter store. -/
theorem claim8_witness :
    StatusChecker.get_job_status
        ⟨fun _ => none, fun _ => .failure, fun _ => none⟩ "job_1_aa".toList =
      { job_id := "job_1_aa".toList, status := "unknown".toList } :=
  claim8_unknown_job_never_raises
    ⟨fun _ => none, fun _ => .failure, fun _ => none⟩ "job_1_aa".toList rfl rfl

theorem jobIdOf_lt_of_ts_lt (t1 t2 : Nat) (s1 s2 : Str)
    (hlen : (decRepr t1).length = (decRepr t2).length) (hlt : t1 < t2) :
    pyLtB (Orch.jobIdOf t1 s1) (Orch.jobIdOf t2 s2) = true := by
  unfold Orch.jobIdOf
  rw [List.append_assoc, List.append_assoc, pyLtB_append_same]
  exact pyLtB_of_decVal_lt hlen (fun c hc => isDig_mem_decRepr hc)
    (fun c hc => isDig_mem_decRepr hc)
    (by rw [decVal_decRepr, decVal_decRepr]; exact hlt) _ _

/-- C9 as the code actually behaves: `list_recent_jobs` returns at most
`limit` entries — exactly `min limit` of the number of distinct job ids, so
no per-job status lookup can abort or shrink the list — with no duplicate
job id, ordered strictly descending by job id under Python's string order.
That order is newest-first exactly when the embedded epoch-second prefixes
have equal decimal width (true for all jobs admitted between 2001 and 2286);
across a width change, string-descending is not chronological. -/
theorem claim9_list_recent_jobs (w : StatusChecker.World) (params : List Str)
    (limit : Nat) :
    (StatusChecker.list_recent_jobs w params limit).length =
      min limit (StatusChecker.jobIdsOf params).dedup.length ∧
    ((StatusChecker.list_recent_jobs w params limit).map
        (fun j => j.job_id)).Nodup ∧
    List.Pairwise (fun a b => pyLtB b.job_id a.job_id = true)
      (StatusChecker.list_recent_jobs w params limit) ∧
    (∀ (t1 t2 : Nat) (s1 s2 : Str),
      (decRepr t1).length = (decRepr t2).length → t1 < t2 →
      pyLtB (Orch.jobIdOf t1 s1) (Orch.jobIdOf t2 s2) = true) := by
  have hperm := List.perm_insertionSort geS (StatusChecker.jobIdsOf params).dedup
  have hnodupSorted :
      (List.insertionSort geS (StatusChecker.jobIdsOf params).dedup).Nodup :=
    hperm.symm.nodup (List.nodup_dedup _)
  have hsorted := List.sorted_insertionSort geS (StatusChecker.jobIdsOf params).dedup
  have hselNodup :
      ((List.insertionSort geS (StatusChecker.jobIdsOf params).dedup).take
        limit).Nodup :=
    hnodupSorted.sublist (List.take_sublist _ _)
  have hselSorted : List.Pairwise geS
      ((List.insertionSort geS (StatusChecker.jobIdsOf params).dedup).take limit) :=
    List.Pairwise.sublist (List.take_sublist _ _) hsorted
  have hstrict : List.Pairwise (fun a b => pyLtB b a = true)
      ((List.insertionSort geS (StatusChecker.jobIdsOf params).dedup).take limit) := by
    refine (hselSorted.and hselNodup).imp ?_
    rintro a b ⟨hge, hne⟩
    refine (pyLtB_connected hne).resolve_left (fun ht => ?_)
    rw [geS] at hge
    rw [hge] at ht
    exact absurd ht (by simp)
  have hmap : (StatusChecker.list_recent_jobs w params limit).map
      (fun j => j.job_id) =
      (List.insertionSort geS (StatusChecker.jobIdsOf params).dedup).take limit := by
    unfold StatusChecker.list_recent_jobs
    rw [List.map_map]
    have : ∀ a ∈ (List.insertionSort geS
        (StatusChecker.jobIdsOf params).dedup).take limit,
        ((fun j => j.job_id) ∘ StatusChecker.get_job_status w) a = id a :=
      fun a _ => StatusChecker.get_job_status_job_id w a
    rw [List.map_congr_left this, List.map_id]
  refine ⟨?_, ?_, ?_, jobIdOf_lt_of_ts_lt⟩
  · unfold StatusChecker.list_recent_jobs
    rw [List.length_map, List.length_take, hperm.length_eq]
  · rw [hmap]
    exact hselNodup
  · unfold StatusChecker.list_recent_jobs
    rw [List.pairwise_map]
    refine hstrict.imp ?_
    intro a b h
    rw [StatusChecker.get_job_status_job_id, StatusChecker.get_job_status_job_id]
    exact h

/-- Counterexample to C9's newest-first reading: with one job admitted at
epoch second 999999999 and one at 1000000000, string-descending order lists
the older job first. -/
theorem claim9_counterexample :
    (StatusChecker.list_recent_jobs
        ⟨fun _ => none, fun _ => .failure, fun _ => none⟩
        ["/divinepic/jobs/job_999999999_a/status".toList,
         "/divinepic/jobs/job_1000000000_b/status".toList] 10).map
      (fun j => j.job_id) =
      ["job_999999999_a".toList, "job_1000000000_b".toList] ∧
    Orch.jobIdOf 999999999 "a".toList = "job_999999999_a".toList ∧
    Orch.jobIdOf 1000000000 "b".toList = "job_1000000000_b".toList ∧
    999999999 < 1000000000 := by decide

/-- Witness for C9 at a concrete store. -/
theorem claim9_witness :
    (StatusChecker.list_recent_jobs
        ⟨fun _ => none, fun _ => .failure, fun _ => none⟩
        ["/divinepic/jobs/job_2_b/status".toList,
         "/divinepic/jobs/job_1_a/status".toList] 10).length =
      min 10 (StatusChecker.jobIdsOf
        ["/divinepic/jobs/job_2_b/status".toList,
         "/divinepic/jobs/job_1_a/status".toList]).dedup.length ∧
    pyLtB (Orch.jobIdOf 1 "a".toList) (Orch.jobIdOf 2 "a".toList) = true :=
  ⟨(claim9_list_recent_jobs ⟨fun _ => none, fun _ => .failure, fun _ => none⟩
      ["/divinepic/jobs/job_2_b/status".toList,
       "/divinepic/jobs/job_1_a/status".toList] 10).1,
   (claim9_list_recent_jobs ⟨fun _ => none, fun _ => .failure, fun _ => none⟩
      ["/divinepic/jobs/job_2_b/status".toList,
       "/divinepic/jobs/job_1_a/status".toList] 10).2.2.2 1 2 "a".toList
      "a".toList (by decide) (by decide)⟩

/-- C10 as the code actually behaves: the synchronous handler and dump.py
compute the identical region-qualified public URL for the same bucket,
region and key, but the worker runtime's template omits the region segment,
so its URL string never equals theirs — for any bucket, region and key. -/
theorem claim10_public_url_forms (bucket region key : Str) :
    H.public_url_handler bucket region key = Dump.public_url_dump bucket region key ∧
    H.public_url_handler bucket region key ≠ Orch.worker_public_url bucket key := by
  refine ⟨rfl, fun h => ?_⟩
  have hlen := congrArg List.length h
  simp only [H.public_url_handler, Orch.worker_public_url, List.length_append,
    show (".s3.".toList).length = 4 from rfl,
    show (".amazonaws.com/".toList).length = 15 from rfl,
    show (".s3.amazonaws.com/".toList).length = 18 from rfl] at hlen
  omega

/-- Counterexample to C10 as stated, at the deployment's default bucket and
region. -/
theorem claim10_counterexample :
    H.public_url_handler "divinepic-test".toList "ap-south-1".toList
        "jobs/j/input/000_a.jpg".toList ≠
      Orch.worker_public_url "divinepic-test".toList
        "jobs/j/input/000_a.jpg".toList := by decide
